import Mathlib

/-
Verification of the Mastermind game engine (src/mastermind.py).

The Python program is shallowly embedded below:
  * `GameConfig` mirrors the dataclass `GameConfig` (COLORS, CODE_LENGTH,
    MAX_TRIES); Python ints are modelled as `Int`.
  * Symbols are `Char`; Python strings are `List Char` at the engine level
    and `String` for user-facing messages.
  * `pass1` / `pass2` are the two loops of `MastermindGame._evaluate_guess`,
    with Python's `None` sentinel modelled by `Option Char`.
  * `validateGuess`, `playTurn`, `generateSecretCode`, `initGame` mirror
    `_validate_guess`, `play_turn`, `_generate_secret_code`, `__init__`.
  * `mainLoopGuard` is the `while` condition of `main`.
-/

/-- Mirror of the Python dataclass `GameConfig`.  `COLORS` is the palette
(`None` defaulting in `__post_init__` is resolved by the caller supplying the
default list), `CODE_LENGTH` and `MAX_TRIES` are Python ints. -/
structure GameConfig where
  COLORS : List Char
  CODE_LENGTH : Int
  MAX_TRIES : Int
deriving DecidableEq, Repr

/-- The default palette `['R', 'G', 'B', 'Y', 'W', 'O']` set by
`GameConfig.__post_init__` when no palette is given. -/
def defaultColors : List Char := ['R', 'G', 'B', 'Y', 'W', 'O']

/-- The default configuration `GameConfig()`. -/
def defaultConfig : GameConfig := ⟨defaultColors, 4, 10⟩

/-- Mutable state of a `MastermindGame` instance: `secret_code`, `tries`,
`game_won`.  `tries` starts at 0 and is only incremented, so it is a `Nat`. -/
structure GameState where
  secret_code : List Char
  tries : Nat
  game_won : Bool
deriving DecidableEq, Repr

/-- Mirror of `MastermindGame._validate_guess`: length must equal
`CODE_LENGTH` and every character, uppercased, must be in `COLORS`. -/
def validateGuess (cfg : GameConfig) (guess : List Char) : Bool :=
  if (guess.length : Int) ≠ cfg.CODE_LENGTH then false
  else guess.all (fun c => c.toUpper ∈ cfg.COLORS)

/-- First loop of `_evaluate_guess`: walk `secret_copy` and `guess_copy` in
step; on `guess_copy[i] == secret_copy[i]` count an exact match and set both
slots to `None`.  Returns (exact matches, secret after pass 1, guess after
pass 1).  The `(s :: ss, [])` case cannot arise in the program (Python would
raise `IndexError`); every use below has equal-length lists. -/
def pass1 : List (Option Char) → List (Option Char) →
    Nat × List (Option Char) × List (Option Char)
  | [], gs => (0, [], gs)
  | ss, [] => (0, ss, [])
  | s :: ss, g :: gs =>
    let r := pass1 ss gs
    if g = s then (r.1 + 1, none :: r.2.1, none :: r.2.2)
    else (r.1, s :: r.2.1, g :: r.2.2)

/-- `secret_copy[secret_copy.index(x)] = None` for `x = some a`: blank the
first remaining occurrence of `a` in the secret. -/
def setFirstNone : List (Option Char) → Char → List (Option Char)
  | [], _ => []
  | x :: xs, a => if x = some a then none :: xs else x :: setFirstNone xs a

/-- Second loop of `_evaluate_guess`: for each non-`None` guess slot whose
symbol still occurs in the remaining secret, count a color match and blank
that secret occurrence. -/
def pass2 : List (Option Char) → List (Option Char) → Nat
  | [], _ => 0
  | g :: gs, sl =>
    match g with
    | none => pass2 gs sl
    | some a => if some a ∈ sl then pass2 gs (setFirstNone sl a) + 1
                else pass2 gs sl

/-- Mirror of `MastermindGame._evaluate_guess`: two-pass scoring returning
(exact_matches, color_matches). -/
def evaluateGuess (secret guess : List Char) : Nat × Nat :=
  let r := pass1 (secret.map some) (guess.map some)
  (r.1, pass2 r.2.2 r.2.1)

/-- The f-string `f"Congratulations! You\x27ve won in {self.tries} tries!"`. -/
def winMessage (tries : Nat) : String :=
  "Congratulations! You\x27ve won in " ++ toString tries ++ " tries!"

/-- The f-string revealing the secret on exhaustion of tries
(`''.join(self.secret_code)` is `String.mk`). -/
def lostMessage (secret : List Char) : String :=
  "Game Over! The secret code was " ++ String.mk secret

/-- The f-string `f"Exact matches: {exact_matches}, Color matches: {color_matches}"`. -/
def scoreMessage (e c : Nat) : String :=
  "Exact matches: " ++ toString e ++ ", Color matches: " ++ toString c

/-- The rejection message for invalid guesses. -/
def invalidMessage : String :=
  "Invalid guess! Please use valid colors and correct length."

/-- Mirror of `MastermindGame.play_turn`: normalize, validate (rejecting
without touching state), increment `tries`, score, then report win, loss, or
the match counts.  Returns (is_valid_guess, feedback_message, new state). -/
def playTurn (cfg : GameConfig) (s : GameState) (guess : List Char) :
    Bool × String × GameState :=
  let g := guess.map Char.toUpper
  if ¬ validateGuess cfg g then (false, invalidMessage, s)
  else
    let tries := s.tries + 1
    let r := evaluateGuess s.secret_code g
    if (r.1 : Int) = cfg.CODE_LENGTH then
      (true, winMessage tries, ⟨s.secret_code, tries, true⟩)
    else if (tries : Int) ≥ cfg.MAX_TRIES then
      (true, lostMessage s.secret_code, ⟨s.secret_code, tries, s.game_won⟩)
    else
      (true, scoreMessage r.1 r.2, ⟨s.secret_code, tries, s.game_won⟩)

/-- Python exceptions that the embedded fragment can raise.  `indexError` is
what `random.choices` raises when indexing an empty population. -/
inductive PyError where
  | indexError
deriving DecidableEq, Repr

/-- Model of `random.choices(population, k=k)`: `k` independent draws
`population[floor(random() * n)]`.  The random source is modelled by
`r : Nat → Nat` and the in-range index `floor(random() * n) ∈ [0, n)` by
`r i % n`.  An empty population with `k > 0` raises `IndexError`; `k ≤ 0`
yields the empty list. -/
def choicesModel (population : List Char) (k : Int) (r : Nat → Nat) :
    Except PyError (List Char) :=
  if population.length = 0 ∧ 0 < k then .error .indexError
  else .ok ((List.range k.toNat).map fun i =>
    population.getD (r i % population.length) 'A')

/-- Mirror of `MastermindGame._generate_secret_code`:
`random.choices(self.config.COLORS, k=self.config.CODE_LENGTH)`. -/
def generateSecretCode (cfg : GameConfig) (r : Nat → Nat) :
    Except PyError (List Char) :=
  choicesModel cfg.COLORS cfg.CODE_LENGTH r

/-- Mirror of `MastermindGame.__init__`: generate the secret, set `tries = 0`
and `game_won = False`.  There is no configuration validation anywhere in
`__init__`, `GameConfig`, or `__post_init__`. -/
def initGame (cfg : GameConfig) (r : Nat → Nat) : Except PyError GameState :=
  (generateSecretCode cfg r).map fun sec => ⟨sec, 0, false⟩

/-- The `while` condition of `main`:
`not game.game_won and game.tries < game.config.MAX_TRIES`. -/
def mainLoopGuard (cfg : GameConfig) (s : GameState) : Bool :=
  !s.game_won && decide ((s.tries : Int) < cfg.MAX_TRIES)

/-- Substring containment on messages: `pat` occurs contiguously in `hay`. -/
def strContains (hay pat : String) : Prop :=
  ∃ l r, hay.data = l ++ pat.data ++ r

-- Sanity checks of the embedding on the spec's concrete scenarios.
example : evaluateGuess ['R','R','G','B'] ['R','G','R','B'] = (2, 2) := by decide
example : evaluateGuess ['R','G','B','Y'] ['Y','B','G','R'] = (0, 4) := by decide
example : evaluateGuess ['R','G','B','Y'] ['R','G','B','Y'] = (4, 0) := by decide

/-- `String.append` concatenates the underlying character lists. -/
lemma strData_append (a b : String) : (a ++ b).data = a.data ++ b.data := rfl

/-- Pass 1 counts at most one exact match per secret slot. -/
lemma pass1_le (a : List (Option Char)) : ∀ b, (pass1 a b).1 ≤ a.length := by
  induction a with
  | nil => intro b; simp [pass1]
  | cons x xs ih =>
    intro b
    cases b with
    | nil => simp [pass1]
    | cons y ys =>
      simp only [pass1, List.length_cons]
      have := ih ys
      split <;> simp <;> omega

/-- For equal-length inputs, the exact-match count plus the number of
unconsumed guess slots after pass 1 equals the code length. -/
lemma pass1_counts (s : List Char) : ∀ g : List Char, s.length = g.length →
    (pass1 (s.map some) (g.map some)).1 +
      List.countP (fun x => x.isSome) (pass1 (s.map some) (g.map some)).2.2 =
      g.length := by
  induction s with
  | nil =>
    intro g h
    have hg : g = [] := by cases g <;> simp_all
    subst hg; simp [pass1]
  | cons a ss ih =>
    intro g h
    cases g with
    | nil => simp at h
    | cons b gs =>
      have hlen : ss.length = gs.length := by simpa using h
      have hrec := ih gs hlen
      by_cases hba : b = a
      · subst hba
        simp only [List.map_cons, pass1, if_pos rfl, List.countP_cons,
          List.length_cons]
        simp
        omega
      · simp only [List.map_cons, pass1]
        rw [if_neg (by simpa using hba)]
        simp only [List.countP_cons, List.length_cons]
        simp
        omega

/-- Pass 2 counts at most one color match per unconsumed guess slot. -/
lemma pass2_le (gl : List (Option Char)) :
    ∀ sl, pass2 gl sl ≤ List.countP (fun x => x.isSome) gl := by
  induction gl with
  | nil => intro sl; simp [pass2]
  | cons g gs ih =>
    intro sl
    cases g with
    | none => simpa [pass2, List.countP_cons] using ih sl
    | some a =>
      simp only [pass2, List.countP_cons]
      split
      · have := ih (setFirstNone sl a); simp; omega
      · have := ih sl; simp; omega

/-- Scoring a list against itself consumes everything in pass 1. -/
lemma pass1_self (l : List (Option Char)) :
    pass1 l l = (l.length, List.replicate l.length none,
      List.replicate l.length none) := by
  induction l with
  | nil => simp [pass1]
  | cons a as ih => simp [pass1, ih, List.replicate_succ]

/-- Pass 2 finds nothing when every guess slot is consumed. -/
lemma pass2_replicate_none (n : Nat) (sl : List (Option Char)) :
    pass2 (List.replicate n none) sl = 0 := by
  induction n with
  | zero => simp [pass2]
  | succ n ih => simp [List.replicate_succ, pass2, ih]

/-- Evaluating the secret against itself yields (length, 0). -/
lemma evaluateGuess_self (l : List Char) : evaluateGuess l l = (l.length, 0) := by
  simp [evaluateGuess, pass1_self, List.length_map, pass2_replicate_none]

/-- If pass 1 consumes every secret slot of equal-length inputs, the lists
were equal. -/
lemma pass1_exact_full (s : List Char) : ∀ g : List Char, s.length = g.length →
    (pass1 (s.map some) (g.map some)).1 = s.length → s = g := by
  induction s with
  | nil =>
    intro g h _
    cases g with
    | nil => rfl
    | cons b gs => simp at h
  | cons a ss ih =>
    intro g h he
    cases g with
    | nil => simp at h
    | cons b gs =>
      have hlen : ss.length = gs.length := by simpa using h
      by_cases hba : b = a
      · subst hba
        simp only [List.map_cons, pass1, List.length_cons] at he
        simp at he
        have := ih gs hlen (by omega)
        rw [this]
      · exfalso
        have hle := pass1_le (ss.map some) (gs.map some)
        simp only [List.map_cons, pass1] at he
        rw [if_neg (by simpa using hba)] at he
        simp only [List.length_map, List.length_cons] at he hle
        omega

/-- Unfolding of a successful validation: correct length and palette. -/
lemma validateGuess_eq_true (cfg : GameConfig) (g : List Char) :
    validateGuess cfg g = true ↔
      (g.length : Int) = cfg.CODE_LENGTH ∧
        ∀ c ∈ g, c.toUpper ∈ cfg.COLORS := by
  unfold validateGuess
  split
  · simp_all
  · simp_all [List.all_eq_true]

/-- The win message starts with the word "Congratulations". -/
lemma winMessage_contains_congrats (n : Nat) :
    strContains (winMessage n) "Congratulations" := by
  refine ⟨[], ("! You\x27ve won in ").data ++ (toString n).data ++
    (" tries!").data, ?_⟩
  have h : ("Congratulations! You\x27ve won in ").data =
      ("Congratulations").data ++ ("! You\x27ve won in ").data := by decide
  simp [winMessage, strData_append, h]

/-- The win message reports the try count. -/
lemma winMessage_contains_tries (n : Nat) :
    strContains (winMessage n) (toString n) :=
  ⟨("Congratulations! You\x27ve won in ").data, (" tries!").data, by
    simp [winMessage, strData_append]⟩

/-- The loss message reveals the joined secret code. -/
lemma lostMessage_contains_secret (sec : List Char) :
    strContains (lostMessage sec) (String.mk sec) :=
  ⟨("Game Over! The secret code was ").data, [], by
    simp [lostMessage, strData_append]⟩

/-- The win and loss messages are distinct strings (first characters differ). -/
lemma winMessage_ne_lostMessage (n : Nat) (sec : List Char) :
    winMessage n ≠ lostMessage sec := by
  intro h
  have hC : (winMessage n).data.head? = some 'C' := by
    have h1 : ("Congratulations! You\x27ve won in ").data =
        'C' :: ("ongratulations! You\x27ve won in ").data := by decide
    simp [winMessage, strData_append, h1]
  have hG : (lostMessage sec).data.head? = some 'G' := by
    have h2 : ("Game Over! The secret code was ").data =
        'G' :: ("ame Over! The secret code was ").data := by decide
    simp [lostMessage, strData_append, h2]
  rw [h, hG] at hC
  simp at hC

/-- C2: for every secret and every guess of the same length, the exact and
color match counts sum to at most the code length; each secret slot is
consumed at most once. -/
theorem evaluateGuess_sum_le (s g : List Char) (h : s.length = g.length) :
    (evaluateGuess s g).1 + (evaluateGuess s g).2 ≤ s.length := by
  have h1 := pass1_counts s g h
  have h2 := pass2_le (pass1 (s.map some) (g.map some)).2.2
    (pass1 (s.map some) (g.map some)).2.1
  simp only [evaluateGuess]
  omega

/-- Witness for C2 at secret "RRGB", guess "RGGG". -/
theorem evaluateGuess_sum_le_witness :
    (['R','R','G','B'] : List Char).length = (['R','G','G','G'] : List Char).length ∧
    (evaluateGuess ['R','R','G','B'] ['R','G','G','G']).1 +
      (evaluateGuess ['R','R','G','B'] ['R','G','G','G']).2 ≤ 4 :=
  ⟨by decide, evaluateGuess_sum_le ['R','R','G','B'] ['R','G','G','G'] (by decide)⟩

/-- C1: scoring secret "RRGB" against valid guess "RGRB" yields exactly
2 exact matches and 2 color matches, and `play_turn` reports exactly these
counts in its feedback message. -/
theorem evaluate_duplicate_RRGB_RGRB :
    evaluateGuess ['R','R','G','B'] ['R','G','R','B'] = (2, 2) ∧
    playTurn defaultConfig ⟨['R','R','G','B'], 0, false⟩ ['R','G','R','B'] =
      (true, "Exact matches: 2, Color matches: 2",
        ⟨['R','R','G','B'], 1, false⟩) := by
  constructor
  · decide
  · rfl

/-- C3: a guess whose normalized form equals the secret code is accepted,
scores (codeLength, 0), sets `game_won`, and yields a message containing
"Congratulations" and the number of tries used. -/
theorem playTurn_winning_guess (cfg : GameConfig) (s : GameState)
    (guess : List Char)
    (hwon : s.game_won = false)
    (hg : guess.map Char.toUpper = s.secret_code)
    (hv : validateGuess cfg s.secret_code = true) :
    (playTurn cfg s guess).1 = true ∧
    evaluateGuess s.secret_code (guess.map Char.toUpper) =
      (s.secret_code.length, 0) ∧
    (playTurn cfg s guess).2.2.game_won = true ∧
    (playTurn cfg s guess).2.2.tries = s.tries + 1 ∧
    strContains (playTurn cfg s guess).2.1 "Congratulations" ∧
    strContains (playTurn cfg s guess).2.1 (toString (s.tries + 1)) := by
  have hlen : (s.secret_code.length : Int) = cfg.CODE_LENGTH :=
    ((validateGuess_eq_true cfg s.secret_code).1 hv).1
  have heval : evaluateGuess s.secret_code (guess.map Char.toUpper) =
      (s.secret_code.length, 0) := by rw [hg]; exact evaluateGuess_self _
  have hpt : playTurn cfg s guess =
      (true, winMessage (s.tries + 1), ⟨s.secret_code, s.tries + 1, true⟩) := by
    simp only [playTurn]
    rw [hg, hv]
    simp [evaluateGuess_self, hlen]
  refine ⟨by rw [hpt], heval, by rw [hpt], by rw [hpt], ?_, ?_⟩
  · rw [hpt]; exact winMessage_contains_congrats _
  · rw [hpt]; exact winMessage_contains_tries _

/-- Witness for C3 at secret "RGBY", lowercase guess "rgby". -/
theorem playTurn_winning_guess_witness :
    (⟨['R','G','B','Y'], 0, false⟩ : GameState).game_won = false ∧
    (['r','g','b','y'] : List Char).map Char.toUpper = ['R','G','B','Y'] ∧
    validateGuess defaultConfig ['R','G','B','Y'] = true ∧
    (playTurn defaultConfig ⟨['R','G','B','Y'], 0, false⟩
      ['r','g','b','y']).2.2.game_won = true :=
  ⟨rfl, by decide, by decide,
    (playTurn_winning_guess defaultConfig ⟨['R','G','B','Y'], 0, false⟩
      ['r','g','b','y'] rfl (by decide) (by decide)).2.2.1⟩

/-- C4: an invalid guess is rejected with the diagnostic message and the
state is returned unchanged (no try consumed, `game_won` untouched). -/
theorem playTurn_rejects_invalid (cfg : GameConfig) (s : GameState)
    (guess : List Char)
    (h : validateGuess cfg (guess.map Char.toUpper) = false) :
    playTurn cfg s guess = (false, invalidMessage, s) := by
  simp [playTurn, h]

/-- Witness for C4 at the too-short guess "RG". -/
theorem playTurn_rejects_invalid_witness :
    validateGuess defaultConfig ((['R','G'] : List Char).map Char.toUpper) =
      false ∧
    playTurn defaultConfig ⟨['R','G','B','Y'], 3, false⟩ ['R','G'] =
      (false, invalidMessage, ⟨['R','G','B','Y'], 3, false⟩) :=
  ⟨by decide,
    playTurn_rejects_invalid defaultConfig ⟨['R','G','B','Y'], 3, false⟩
      ['R','G'] (by decide)⟩

/-- C5: a valid non-winning guess on the final try is accepted and the
returned message contains the literal secret code string. -/
theorem playTurn_final_try_loss (cfg : GameConfig) (s : GameState)
    (guess : List Char)
    (hlen : (s.secret_code.length : Int) = cfg.CODE_LENGTH)
    (hv : validateGuess cfg (guess.map Char.toUpper) = true)
    (hne : guess.map Char.toUpper ≠ s.secret_code)
    (ht : (s.tries : Int) + 1 = cfg.MAX_TRIES) :
    (playTurn cfg s guess).1 = true ∧
    strContains (playTurn cfg s guess).2.1 (String.mk s.secret_code) := by
  have hglen : (guess.map Char.toUpper).length = s.secret_code.length := by
    have := ((validateGuess_eq_true cfg _).1 hv).1
    omega
  have hexact :
      ¬ (((evaluateGuess s.secret_code (guess.map Char.toUpper)).1 : Int) =
        cfg.CODE_LENGTH) := by
    intro hEq
    have h1 : (evaluateGuess s.secret_code (guess.map Char.toUpper)).1 =
        s.secret_code.length := by omega
    simp only [evaluateGuess] at h1
    exact hne ((pass1_exact_full s.secret_code (guess.map Char.toUpper)
      hglen.symm h1).symm)
  have hpt : playTurn cfg s guess =
      (true, lostMessage s.secret_code,
        ⟨s.secret_code, s.tries + 1, s.game_won⟩) := by
    simp only [playTurn]
    rw [hv]
    simp [hexact]
    omega
  exact ⟨by rw [hpt], by rw [hpt]; exact lostMessage_contains_secret _⟩

/-- Witness for C5: ninth try used, wrong guess "RRRR" on the tenth. -/
theorem playTurn_final_try_loss_witness :
    (((['R','G','B','Y'] : List Char).length : Int) =
      defaultConfig.CODE_LENGTH) ∧
    validateGuess defaultConfig
      ((['R','R','R','R'] : List Char).map Char.toUpper) = true ∧
    (['R','R','R','R'] : List Char).map Char.toUpper ≠ ['R','G','B','Y'] ∧
    ((9 : Nat) : Int) + 1 = defaultConfig.MAX_TRIES ∧
    strContains
      (playTurn defaultConfig ⟨['R','G','B','Y'], 9, false⟩
        ['R','R','R','R']).2.1
      (String.mk ['R','G','B','Y']) :=
  ⟨by decide, by decide, by decide, by decide,
    (playTurn_final_try_loss defaultConfig ⟨['R','G','B','Y'], 9, false⟩
      ['R','R','R','R'] (by decide) (by decide) (by decide) (by decide)).2⟩

/-- C6: the win check precedes the loss check: a winning guess on the final
try sets `game_won` and returns the success message with the try count, not
the secret-revealing loss message. -/
theorem playTurn_win_beats_loss (cfg : GameConfig) (s : GameState)
    (guess : List Char)
    (hg : guess.map Char.toUpper = s.secret_code)
    (hv : validateGuess cfg s.secret_code = true)
    (ht : (s.tries : Int) + 1 ≥ cfg.MAX_TRIES) :
    (playTurn cfg s guess).2.2.game_won = true ∧
    (playTurn cfg s guess).2.1 = winMessage (s.tries + 1) ∧
    (playTurn cfg s guess).2.1 ≠ lostMessage s.secret_code ∧
    strContains (playTurn cfg s guess).2.1 (toString (s.tries + 1)) := by
  have hlen : (s.secret_code.length : Int) = cfg.CODE_LENGTH :=
    ((validateGuess_eq_true cfg s.secret_code).1 hv).1
  have hpt : playTurn cfg s guess =
      (true, winMessage (s.tries + 1), ⟨s.secret_code, s.tries + 1, true⟩) := by
    simp only [playTurn]
    rw [hg, hv]
    simp [evaluateGuess_self, hlen]
  refine ⟨by rw [hpt], by rw [hpt], ?_, ?_⟩
  · rw [hpt]; exact winMessage_ne_lostMessage _ _
  · rw [hpt]; exact winMessage_contains_tries _

/-- Witness for C6: `maxTries = 1`, winning guess on the only try. -/
theorem playTurn_win_beats_loss_witness :
    (['r','g','b','y'] : List Char).map Char.toUpper = ['R','G','B','Y'] ∧
    validateGuess ⟨defaultColors, 4, 1⟩ ['R','G','B','Y'] = true ∧
    (((0 : Nat) : Int) + 1 ≥ (⟨defaultColors, 4, 1⟩ : GameConfig).MAX_TRIES) ∧
    (playTurn ⟨defaultColors, 4, 1⟩ ⟨['R','G','B','Y'], 0, false⟩
      ['r','g','b','y']).2.2.game_won = true :=
  ⟨by decide, by decide, by decide,
    (playTurn_win_beats_loss ⟨defaultColors, 4, 1⟩ ⟨['R','G','B','Y'], 0, false⟩
      ['r','g','b','y'] (by decide) (by decide) (by decide)).1⟩

/-- C7 counterexample: a state with `tries = maxTries` (terminal per the
claim) is still mutated by a subsequent `play_turn` call with a valid
non-winning guess — `tries` changes from 10 to 11. -/
theorem playTurn_terminal_counterexample :
    ((⟨['R','G','B','Y'], 10, false⟩ : GameState).game_won = true ∨
      (((⟨['R','G','B','Y'], 10, false⟩ : GameState).tries : Int) =
        defaultConfig.MAX_TRIES)) ∧
    (playTurn defaultConfig ⟨['R','G','B','Y'], 10, false⟩
        ['R','R','R','R']).2.2.tries ≠
      (⟨['R','G','B','Y'], 10, false⟩ : GameState).tries := by
  constructor
  · right; decide
  · decide

/-- C7 amended: `play_turn` never resets `game_won` once set; `tries` stays
at most `maxTries` provided `play_turn` is only called under the main loop's
guard `tries < maxTries`; and the main loop's guard is false in every
terminal state, so the driver never steps a terminal game.  `play_turn`
itself does not enforce terminality. -/
theorem playTurn_terminal_amended (cfg : GameConfig) (s : GameState)
    (guess : List Char) :
    (s.game_won = true → (playTurn cfg s guess).2.2.game_won = true) ∧
    ((s.tries : Int) < cfg.MAX_TRIES →
      ((playTurn cfg s guess).2.2.tries : Int) ≤ cfg.MAX_TRIES) ∧
    (s.game_won = true ∨ (s.tries : Int) = cfg.MAX_TRIES →
      mainLoopGuard cfg s = false) := by
  refine ⟨?_, ?_, ?_⟩
  · intro h
    simp only [playTurn]
    split
    · simpa using h
    · split
      · rfl
      · split
        · simpa using h
        · simpa using h
  · intro h
    simp only [playTurn]
    split
    · simp; omega
    · split
      · simp; omega
      · split
        · simp; omega
        · simp; omega
  · intro h
    unfold mainLoopGuard
    rcases h with h | h
    · simp [h]
    · simp [h]

/-- Witness for C7's amended statement at a won, in-budget state. -/
theorem playTurn_terminal_amended_witness :
    (playTurn defaultConfig ⟨['R','G','B','Y'], 3, true⟩
      ['R','R','R','R']).2.2.game_won = true ∧
    (((playTurn defaultConfig ⟨['R','G','B','Y'], 3, true⟩
      ['R','R','R','R']).2.2.tries : Int) ≤ defaultConfig.MAX_TRIES) ∧
    mainLoopGuard defaultConfig ⟨['R','G','B','Y'], 3, true⟩ = false :=
  ⟨(playTurn_terminal_amended defaultConfig ⟨['R','G','B','Y'], 3, true⟩
      ['R','R','R','R']).1 rfl,
   (playTurn_terminal_amended defaultConfig ⟨['R','G','B','Y'], 3, true⟩
      ['R','R','R','R']).2.1 (by decide),
   (playTurn_terminal_amended defaultConfig ⟨['R','G','B','Y'], 3, true⟩
      ['R','R','R','R']).2.2 (Or.inl rfl)⟩

/-- C8 counterexample: constructing a game from a malformed configuration
(non-positive `MAX_TRIES = 0`) succeeds with no error of any kind. -/
theorem initGame_no_error_counterexample :
    initGame ⟨defaultColors, 4, 0⟩ (fun _ => 0) =
      .ok ⟨['R','R','R','R'], 0, false⟩ := rfl

/-- C8 amended: construction validates nothing — every configuration with a
nonempty palette constructs successfully (even with non-positive code length
or max tries), and an empty palette with positive code length fails with an
`IndexError` raised inside random secret generation, not with a
configuration error at validation. -/
theorem initGame_no_validation (cfg : GameConfig) (r : Nat → Nat) :
    (cfg.COLORS ≠ [] → ∃ g : GameState, initGame cfg r = .ok g) ∧
    (cfg.COLORS = [] → 0 < cfg.CODE_LENGTH →
      initGame cfg r = .error .indexError) := by
  constructor
  · intro h
    have hne : ¬ (cfg.COLORS.length = 0 ∧ 0 < cfg.CODE_LENGTH) := by
      intro hc
      exact h (List.length_eq_zero.mp hc.1)
    refine ⟨⟨(List.range cfg.CODE_LENGTH.toNat).map
      (fun i => cfg.COLORS.getD (r i % cfg.COLORS.length) 'A'), 0, false⟩, ?_⟩
    unfold initGame generateSecretCode choicesModel
    rw [if_neg hne]
    rfl
  · intro h hk
    unfold initGame generateSecretCode choicesModel
    rw [if_pos ⟨by simp [h], hk⟩]
    rfl

/-- Witness for C8's amended statement: default palette with zero tries
constructs; empty palette with positive length raises IndexError. -/
theorem initGame_no_validation_witness :
    (∃ g : GameState, initGame ⟨defaultColors, 4, 0⟩ (fun _ => 0) = .ok g) ∧
    initGame ⟨[], 4, 0⟩ (fun _ => 0) = .error .indexError :=
  ⟨(initGame_no_validation ⟨defaultColors, 4, 0⟩ (fun _ => 0)).1 (by decide),
   (initGame_no_validation ⟨[], 4, 0⟩ (fun _ => 0)).2 rfl (by decide)⟩

/-- C9: for every configuration with nonnegative code length and every
outcome of the random source, a successfully generated secret code has
exactly `CODE_LENGTH` symbols, each drawn from the palette. -/
theorem generateSecretCode_valid (cfg : GameConfig) (r : Nat → Nat)
    (code : List Char)
    (hk : 0 ≤ cfg.CODE_LENGTH)
    (h : generateSecretCode cfg r = .ok code) :
    (code.length : Int) = cfg.CODE_LENGTH ∧ ∀ c ∈ code, c ∈ cfg.COLORS := by
  unfold generateSecretCode choicesModel at h
  by_cases hc : cfg.COLORS.length = 0 ∧ 0 < cfg.CODE_LENGTH
  · rw [if_pos hc] at h
    exact absurd h (by simp)
  · rw [if_neg hc] at h
    have hcode : code = (List.range cfg.CODE_LENGTH.toNat).map
        (fun i => cfg.COLORS.getD (r i % cfg.COLORS.length) 'A') := by
      cases h
      rfl
    subst hcode
    constructor
    · simp only [List.length_map, List.length_range]
      omega
    · intro c hcmem
      simp only [List.mem_map, List.mem_range] at hcmem
      obtain ⟨i, hi, heq⟩ := hcmem
      by_cases hcol : cfg.COLORS.length = 0
      · exfalso
        have hk0 : ¬ 0 < cfg.CODE_LENGTH := fun hpos => hc ⟨hcol, hpos⟩
        have hz : cfg.CODE_LENGTH.toNat = 0 := by omega
        rw [hz] at hi
        omega
      · have hlt : r i % cfg.COLORS.length < cfg.COLORS.length :=
          Nat.mod_lt _ (Nat.pos_of_ne_zero hcol)
        rw [← heq, List.getD_eq_getElem _ _ hlt]
        exact List.getElem_mem hlt

/-- Witness for C9 at the default configuration and a concrete source. -/
theorem generateSecretCode_valid_witness :
    (0 : Int) ≤ defaultConfig.CODE_LENGTH ∧
    generateSecretCode defaultConfig (fun i => i) =
      .ok ['R','G','B','Y'] ∧
    ((['R','G','B','Y'] : List Char).length : Int) =
      defaultConfig.CODE_LENGTH ∧
    ∀ c ∈ (['R','G','B','Y'] : List Char), c ∈ defaultConfig.COLORS :=
  ⟨by decide, rfl,
    generateSecretCode_valid defaultConfig (fun i => i) ['R','G','B','Y']
      (by decide) rfl⟩

/-- The multiset of symbols in the unconsumed (non-`None`) slots. -/
def somesM (l : List (Option Char)) : Multiset Char :=
  ((l.filterMap id : List Char) : Multiset Char)

/-- A `none` slot contributes nothing to the multiset of symbols. -/
lemma somesM_cons_none (l : List (Option Char)) :
    somesM (none :: l) = somesM l := by
  simp [somesM, List.filterMap_cons]

/-- A `some` slot contributes its symbol to the multiset of symbols. -/
lemma somesM_cons_some (a : Char) (l : List (Option Char)) :
    somesM (some a :: l) = a ::ₘ somesM l := by
  simp [somesM, List.filterMap_cons, Multiset.cons_coe]

/-- Membership in the symbol multiset is membership of the `some` slot. -/
lemma mem_somesM (a : Char) (l : List (Option Char)) :
    a ∈ somesM l ↔ some a ∈ l := by
  simp [somesM, List.mem_filterMap]

/-- Blanking the first occurrence erases one copy from the multiset. -/
lemma somesM_setFirstNone (a : Char) : ∀ sl : List (Option Char),
    some a ∈ sl → somesM (setFirstNone sl a) = (somesM sl).erase a := by
  intro sl
  induction sl with
  | nil => intro h; simp at h
  | cons x xs ih =>
    intro h
    by_cases hx : x = some a
    · subst hx
      simp [setFirstNone, somesM_cons_none, somesM_cons_some,
        Multiset.erase_cons_head]
    · have hmem : some a ∈ xs := by
        rcases List.mem_cons.mp h with h1 | h1
        · exact absurd h1.symm hx
        · exact h1
      rw [setFirstNone, if_neg hx]
      cases x with
      | none => simp [somesM_cons_none, ih hmem]
      | some b =>
        have hba : b ≠ a := fun hEq => hx (by rw [hEq])
        simp [somesM_cons_some, ih hmem, Multiset.erase_cons_tail _ hba]

/-- Pass 2 computes the size of the multiset intersection of the unconsumed
guess symbols and the unconsumed secret symbols. -/
lemma pass2_eq_inter_card : ∀ gl sl : List (Option Char),
    pass2 gl sl = Multiset.card (somesM gl ∩ somesM sl) := by
  intro gl
  induction gl with
  | nil => intro sl; simp [pass2, somesM]
  | cons g gs ih =>
    intro sl
    cases g with
    | none => simp [pass2, somesM_cons_none, ih]
    | some a =>
      simp only [pass2]
      by_cases hmem : (some a) ∈ sl
      · rw [if_pos hmem, somesM_cons_some,
          Multiset.cons_inter_of_pos _ ((mem_somesM a sl).mpr hmem),
          Multiset.card_cons, ih (setFirstNone sl a),
          somesM_setFirstNone a sl hmem]
      · rw [if_neg hmem, somesM_cons_some,
          Multiset.cons_inter_of_neg _ (fun hIn => hmem ((mem_somesM a sl).mp hIn)),
          ih sl]

/-- Pass 2 is symmetric in the two slot lists. -/
lemma pass2_comm (a b : List (Option Char)) : pass2 a b = pass2 b a := by
  rw [pass2_eq_inter_card, pass2_eq_inter_card, Multiset.inter_comm]

/-- Pass 1 on swapped equal-length inputs swaps its leftover lists and keeps
the exact-match count. -/
lemma pass1_swap : ∀ a b : List (Option Char), a.length = b.length →
    pass1 b a = ((pass1 a b).1, (pass1 a b).2.2, (pass1 a b).2.1) := by
  intro a
  induction a with
  | nil =>
    intro b h
    have hb : b = [] := by cases b <;> simp_all
    subst hb
    simp [pass1]
  | cons x xs ih =>
    intro b h
    cases b with
    | nil => simp at h
    | cons y ys =>
      have hlen : xs.length = ys.length := by simpa using h
      simp only [pass1]
      by_cases hxy : x = y
      · subst hxy
        rw [if_pos rfl, if_pos rfl]
        simp [ih ys hlen]
      · rw [if_neg hxy, if_neg (fun hyx => hxy hyx.symm)]
        simp [ih ys hlen]

/-- C10: scoring is symmetric — evaluating guess g against secret s gives
the same (exact, color) pair as evaluating guess s against secret g, for
equal-length lists. -/
theorem evaluateGuess_symm (s g : List Char) (h : s.length = g.length) :
    evaluateGuess s g = evaluateGuess g s := by
  have hswap := pass1_swap (s.map some) (g.map some) (by simp [h])
  simp only [evaluateGuess]
  rw [hswap]
  simp only
  rw [pass2_comm]

/-- Witness for C10 at secret "RGB", guess "GRR". -/
theorem evaluateGuess_symm_witness :
    (['R','G','B'] : List Char).length = (['G','R','R'] : List Char).length ∧
    evaluateGuess ['R','G','B'] ['G','R','R'] =
      evaluateGuess ['G','R','R'] ['R','G','B'] :=
  ⟨rfl, evaluateGuess_symm ['R','G','B'] ['G','R','R'] rfl⟩
